import Mathlib

/-!
Verification of the feature-orchestration engine: the workspace store,
artifact repository and state machine of mcp/feature-orchestrator/src/index.ts,
the failure categorizer of mcp/playwright-orchestrator/src/index.ts, and the
coverage gate and test-result correlator of the agent layer.  Machine strings
are Lean `String`s, JavaScript truthiness of a string argument is the test
against the empty string, the workspace directory tree is an association list
from feature id to workspace, and each fallible tool call returns `Except`.
-/

namespace DocsDriven

/-! ## Association lists: the file system as a map from names to entries -/

/-- Lookup in an association list by key, first binding wins. -/
def assocGet {α : Type} : List (String × α) → String → Option α
  | [], _ => none
  | (k0, v0) :: rest, k => if k0 = k then some v0 else assocGet rest k

/-- Set a key in an association list: overwrite the first binding when the
key is present, append otherwise (a file write creates or overwrites). -/
def assocSet {α : Type} : List (String × α) → String → α → List (String × α)
  | [], k, v => [(k, v)]
  | (k0, v0) :: rest, k, v =>
    if k0 = k then (k, v) :: rest else (k0, v0) :: assocSet rest k v

theorem assocGet_assocSet_self {α : Type} (l : List (String × α)) (k : String) (v : α) :
    assocGet (assocSet l k v) k = some v := by
  induction l with
  | nil => simp [assocSet, assocGet]
  | cons hd tl ih =>
    obtain ⟨k0, v0⟩ := hd
    by_cases h : k0 = k
    · simp [assocSet, assocGet, h]
    · simp [assocSet, assocGet, h, ih]

/-! ## JavaScript string containment

`String.prototype.includes` is a case-sensitive substring test; it is embedded
as a scan over the character list. -/

/-- Pattern `p` begins the list `l` character for character. -/
def leadsWith : List Char → List Char → Bool
  | [], _ => true
  | _ :: _, [] => false
  | p :: ps, c :: cs => (p = c) && leadsWith ps cs

/-- Substring test on character lists: some suffix of the haystack starts
with the pattern. -/
def charsInclude : List Char → List Char → Bool
  | [], pat => pat.isEmpty
  | c :: cs, pat => leadsWith pat (c :: cs) || charsInclude cs pat

/-- Embedding of JavaScript `s.includes(pat)` (case-sensitive). -/
def strIncludes (s pat : String) : Bool :=
  charsInclude s.toList pat.toList

/-! ## Failure categorization

`categorizeFailure` from mcp/playwright-orchestrator/src/index.ts lines
389-400: ordered case-sensitive substring rules over the error message. -/

/-- Embedding of `categorizeFailure(errorMessage)`: the source tests, in
order, `includes('Timeout') || includes('waiting for selector')`, then
`includes('API') || includes('fetch') || includes('network')`, then
`includes('expect')`, all case-sensitive. -/
def categorizeFailure (errorMessage : String) : String :=
  if strIncludes errorMessage ("Timeout") || strIncludes errorMessage ("waiting for selector") then
    "frontend"
  else if strIncludes errorMessage ("API") || strIncludes errorMessage ("fetch")
      || strIncludes errorMessage ("network") then
    "backend"
  else if strIncludes errorMessage ("expect") then
    "assertion"
  else
    "unknown"

/-! ## JSON recognizer

`saveArtifact` validates `type === 'json'` content with `JSON.parse`; the
embedding is a recognizer for the JSON grammar (RFC 8259, the grammar
`JSON.parse` accepts): a value is an object, array, string, number, `true`,
`false` or `null`, with insignificant whitespace around structural tokens.
Each parsing function consumes a recognized production and returns the
remaining characters, or `none` on a syntax error. -/

/-- Insignificant JSON whitespace: space, tab, line feed, carriage return. -/
def isJsonWs (c : Char) : Bool :=
  c = ' ' || c = '\t' || c = '\n' || c = '\r'

/-- Drop leading JSON whitespace. -/
def skipWs : List Char → List Char
  | [] => []
  | c :: cs => if isJsonWs c then skipWs cs else c :: cs

/-- Hexadecimal digit, for string escapes of the form backslash-u-XXXX. -/
def isHexDigitChar (c : Char) : Bool :=
  c.isDigit || ('a' ≤ c && c ≤ 'f') || ('A' ≤ c && c ≤ 'F')

/-- Rest of a JSON string after the opening quote: plain characters above
U+001F, two-character escapes, and u-escapes with four hex digits, up to the
closing quote. -/
def jsonStringRest : List Char → Option (List Char)
  | [] => none
  | c :: cs =>
    if c = '"' then some cs
    else if c = '\\' then
      match cs with
      | [] => none
      | e :: cs2 =>
        if e = '"' || e = '\\' || e = '/' || e = 'b' || e = 'f'
            || e = 'n' || e = 'r' || e = 't' then
          jsonStringRest cs2
        else if e = 'u' then
          match cs2 with
          | h1 :: h2 :: h3 :: h4 :: cs3 =>
            if isHexDigitChar h1 && isHexDigitChar h2
                && isHexDigitChar h3 && isHexDigitChar h4 then
              jsonStringRest cs3
            else none
          | _ => none
        else none
    else if c.toNat < 32 then none
    else jsonStringRest cs

/-- Drop leading decimal digits. -/
def dropDigits : List Char → List Char
  | [] => []
  | c :: cs => if c.isDigit then dropDigits cs else c :: cs

/-- Consume one or more decimal digits. -/
def digits1 : List Char → Option (List Char)
  | [] => none
  | c :: cs => if c.isDigit then some (dropDigits cs) else none

/-- Optional exponent part of a JSON number: e or E, an optional sign, and
one or more digits. -/
def jsonExpPart : List Char → Option (List Char)
  | [] => some []
  | e :: r2 =>
    if e = 'e' || e = 'E' then
      match r2 with
      | s :: rr => if s = '+' || s = '-' then digits1 rr else digits1 r2
      | [] => none
    else some (e :: r2)

/-- Optional fraction then optional exponent, after the integer part. -/
def jsonFracExp : List Char → Option (List Char)
  | [] => some []
  | c :: r2 =>
    if c = '.' then
      match digits1 r2 with
      | some r3 => jsonExpPart r3
      | none => none
    else jsonExpPart (c :: r2)

/-- A JSON number: optional minus, an integer part that is `0` or a nonzero
digit followed by digits, then optional fraction and exponent. -/
def jsonNumberRest (cs : List Char) : Option (List Char) :=
  let cs1 := match cs with
    | '-' :: r => r
    | _ => cs
  match cs1 with
  | [] => none
  | c :: r =>
    if c = '0' then jsonFracExp r
    else if c.isDigit then jsonFracExp (dropDigits r)
    else none

/-- Consume the literal characters of `pat` from the front of the input. -/
def expectChars : List Char → List Char → Option (List Char)
  | cs, [] => some cs
  | [], _ :: _ => none
  | c :: cs, p :: ps => if c = p then expectChars cs ps else none

mutual

/-- A JSON value, fuel-bounded: string, object, array, `true`, `false`,
`null`, or number.  The input must already start at the value. -/
def jsonValue : Nat → List Char → Option (List Char)
  | 0, _ => none
  | fuel + 1, cs =>
    match cs with
    | [] => none
    | c :: rest =>
      if c = '"' then jsonStringRest rest
      else if c = '{' then jsonObjectBody fuel (skipWs rest)
      else if c = '[' then jsonArrayBody fuel (skipWs rest)
      else if c = 't' then expectChars rest ['r', 'u', 'e']
      else if c = 'f' then expectChars rest ['a', 'l', 's', 'e']
      else if c = 'n' then expectChars rest ['u', 'l', 'l']
      else if c = '-' || c.isDigit then jsonNumberRest (c :: rest)
      else none

/-- Body of a JSON object after the opening brace and whitespace: either the
closing brace or one-or-more members. -/
def jsonObjectBody : Nat → List Char → Option (List Char)
  | 0, _ => none
  | fuel + 1, cs =>
    match cs with
    | '}' :: rest => some rest
    | _ => jsonMembers fuel cs

/-- One or more object members: a string key, a colon, a value, then a comma
and more members or the closing brace. -/
def jsonMembers : Nat → List Char → Option (List Char)
  | 0, _ => none
  | fuel + 1, cs =>
    match cs with
    | '"' :: rest =>
      match jsonStringRest rest with
      | none => none
      | some afterKey =>
        match skipWs afterKey with
        | ':' :: afterColon =>
          match jsonValue fuel (skipWs afterColon) with
          | none => none
          | some afterVal =>
            match skipWs afterVal with
            | ',' :: afterComma => jsonMembers fuel (skipWs afterComma)
            | '}' :: rest2 => some rest2
            | _ => none
        | _ => none
    | _ => none

/-- Body of a JSON array after the opening bracket and whitespace: either the
closing bracket or one-or-more items. -/
def jsonArrayBody : Nat → List Char → Option (List Char)
  | 0, _ => none
  | fuel + 1, cs =>
    match cs with
    | ']' :: rest => some rest
    | _ => jsonItems fuel cs

/-- One or more array items: a value, then a comma and more items or the
closing bracket. -/
def jsonItems : Nat → List Char → Option (List Char)
  | 0, _ => none
  | fuel + 1, cs =>
    match jsonValue fuel cs with
    | none => none
    | some afterVal =>
      match skipWs afterVal with
      | ',' :: afterComma => jsonItems fuel (skipWs afterComma)
      | ']' :: rest => some rest
      | _ => none

end

/-- Embedding of the success of `JSON.parse(s)`: leading whitespace, one JSON
value, trailing whitespace, nothing else.  The fuel bounds the recursion
depth; four times the length plus eight exceeds any derivation the input can
sustain, since at most three nested calls occur per consumed character. -/
def jsonParses (s : String) : Bool :=
  let cs := skipWs s.toList
  match jsonValue (4 * s.length + 8) cs with
  | some rest => (skipWs rest).isEmpty
  | none => false

/-! ## Feature orchestrator data model

Types from mcp/feature-orchestrator/src/index.ts lines 36-71.  Timestamps
(`new Date().toISOString()`) are opaque strings supplied to each operation as
`now`. -/

/-- Status union of `FeatureState.status` (source line 46). -/
inductive Status
  | pending
  | in_progress
  | completed
  | failed
  | paused
deriving DecidableEq, Repr

/-- Embedding of `FeatureScope` (source lines 36-40). -/
structure FeatureScope where
  implementation_scope : String
  skip_backend : Bool
  notes : Option String
deriving DecidableEq, Repr

/-- Embedding of `FeatureState` (source lines 42-54). -/
structure FeatureState where
  feature_id : String
  title : Option String
  current_phase : String
  status : Status
  scope : FeatureScope
  created_at : String
  updated_at : String
  phases_completed : List String
  current_iteration : Nat
  max_iterations : Nat
  errors : List String
deriving DecidableEq, Repr

/-- A feature workspace: its `state.json` as the parsed state, its other
files as an association list from artifact name to content bytes.  The
`state.json` and `scope.json` files written by `createWorkspace` are carried
by the `state` field. -/
structure Workspace where
  state : FeatureState
  files : List (String × String)
deriving DecidableEq, Repr

/-- The workspaces directory `.claude/feature-dev`: feature id to workspace. -/
def Store : Type := List (String × Workspace)

/-- The structured failures the tool handlers throw (each `throw new
Error(message)` of the source, named by its message and by the taxonomy). -/
inductive OpError
  | missingFeatureId
  | missingParams
  | workspaceAlreadyExists
  | workspaceNotFound
  | stateNotFound
  | deletionNotConfirmed
  | artifactNotFound
  | invalidArtifactContent
deriving DecidableEq, Repr

/-- Scope argument resolution `(args.scope as ...) || 'full'` of
`createWorkspace` (source line 506): absent or empty means `full`. -/
def resolveScope : Option String → String
  | none => "full"
  | some s => if s = "" then "full" else s

/-- The initial `FeatureState` `createWorkspace` builds (source lines
523-539). -/
def initialState (fid : String) (title : Option String) (scope : Option String)
    (scopeNotes : Option String) (now : String) : FeatureState :=
  let sc := resolveScope scope
  { feature_id := fid
    title := title
    current_phase := "initialization"
    status := Status.in_progress
    scope :=
      { implementation_scope := sc
        skip_backend := sc == "frontend-only"
        notes := scopeNotes }
    created_at := now
    updated_at := now
    phases_completed := []
    current_iteration := 0
    max_iterations := 5
    errors := [] }

/-- Embedding of `createWorkspace` (source lines 503-564): requires a truthy
`feature_id`, fails when the workspace path exists, otherwise creates the
directory with the initial state. -/
def createWorkspace (store : Store) (fid : String) (title : Option String)
    (scope : Option String) (scopeNotes : Option String) (now : String) :
    Except OpError (FeatureState × Store) :=
  if fid = "" then Except.error OpError.missingFeatureId
  else
    match assocGet store fid with
    | some _ => Except.error OpError.workspaceAlreadyExists
    | none =>
      let st := initialState fid title scope scopeNotes now
      Except.ok (st, assocSet store fid { state := st, files := [] })

/-- The optional fields of an `update_state` call (source lines 766-783). -/
structure UpdateFields where
  phase : Option String
  status : Option Status
  increment_iteration : Bool
  add_error : Option String
  mark_phase_completed : Option String
deriving DecidableEq, Repr

/-- Pure core of `updateState` (source lines 765-785): each supplied truthy
field is applied in source order — phase, status, unconditional iteration
increment, error append, guarded phase-completion push — then `updated_at`
is refreshed. -/
def applyUpdate (s : FeatureState) (u : UpdateFields) (now : String) : FeatureState :=
  let s1 := match u.phase with
    | some p => if p = "" then s else { s with current_phase := p }
    | none => s
  let s2 := match u.status with
    | some st => { s1 with status := st }
    | none => s1
  let s3 :=
    if u.increment_iteration then
      { s2 with current_iteration := s2.current_iteration + 1 }
    else s2
  let s4 := match u.add_error with
    | some e => if e = "" then s3 else { s3 with errors := s3.errors ++ [e] }
    | none => s3
  let s5 := match u.mark_phase_completed with
    | some ph =>
      if ph = "" then s4
      else if s4.phases_completed.contains ph then s4
      else { s4 with phases_completed := s4.phases_completed ++ [ph] }
    | none => s4
  { s5 with updated_at := now }

/-- Embedding of `updateState` (source lines 750-797): requires a truthy
`feature_id` and an existing state file, applies the fields, writes back. -/
def updateState (store : Store) (fid : String) (u : UpdateFields) (now : String) :
    Except OpError (FeatureState × Store) :=
  if fid = "" then Except.error OpError.missingFeatureId
  else
    match assocGet store fid with
    | none => Except.error OpError.stateNotFound
    | some w =>
      let s := applyUpdate w.state u now
      Except.ok (s, assocSet store fid { w with state := s })

/-- Embedding of `deleteWorkspace` (source lines 691-722): the truthiness
check on `confirm` precedes the existence check on the workspace path. -/
def deleteWorkspace (store : Store) (fid : String) (confirm : Bool) :
    Except OpError Store :=
  if fid = "" then Except.error OpError.missingFeatureId
  else if !confirm then Except.error OpError.deletionNotConfirmed
  else
    match assocGet store fid with
    | none => Except.error OpError.workspaceNotFound
    | some _ => Except.ok (List.filter (fun e => e.1 ≠ fid) store)

/-- Artifact type resolution `(args.type as string) || 'json'` of
`saveArtifact` (source line 851). -/
def resolveArtifactType : Option String → String
  | none => "json"
  | some s => if s = "" then "json" else s

/-- Content validity for a resolved artifact type: `json` content must parse,
`markdown` and `text` content is unconstrained (the source validates only
`type === 'json'`, lines 866-872). -/
def validForType (ty content : String) : Bool :=
  if ty = "json" then jsonParses content else true

/-- Embedding of `saveArtifact` (source lines 847-890): the joint truthiness
check on `feature_id`, `name` and `content` comes first, then workspace
existence, then JSON validation for json type, and only then the write. -/
def saveArtifact (store : Store) (fid name content : String)
    (ty : Option String) : Except OpError Store :=
  let t := resolveArtifactType ty
  if fid = "" ∨ name = "" ∨ content = "" then Except.error OpError.missingParams
  else
    match assocGet store fid with
    | none => Except.error OpError.workspaceNotFound
    | some w =>
      if t = "json" ∧ jsonParses content = false then
        Except.error OpError.invalidArtifactContent
      else
        Except.ok (assocSet store fid { w with files := assocSet w.files name content })

/-- Embedding of `getArtifact` (source lines 892-928): requires truthy
`feature_id` and `name`, fails when the artifact file is absent, returns the
file content. -/
def getArtifact (store : Store) (fid name : String) : Except OpError String :=
  if fid = "" ∨ name = "" then Except.error OpError.missingParams
  else
    match assocGet store fid with
    | none => Except.error OpError.artifactNotFound
    | some w =>
      match assocGet w.files name with
      | none => Except.error OpError.artifactNotFound
      | some content => Except.ok content

/-- Embedding of `listArtifacts` (source lines 930-979): the names of the
workspace files that do not start with a dot. -/
def listArtifacts (store : Store) (fid : String) : Except OpError (List String) :=
  if fid = "" then Except.error OpError.missingFeatureId
  else
    match assocGet store fid with
    | none => Except.error OpError.workspaceNotFound
    | some w =>
      Except.ok (List.filter (fun f => !(f.startsWith (("."):String)))
        (List.map (fun e => e.1) w.files))

/-! ## Coverage gate

The repository carries the coverage gate only as agent instructions
(plugins/feature-orchestrator/agents/feature-orchestrator.md, Phase 5);
no executable gate code exists, so the decision function is modelled from
the specification. -/

/-- Modelled from the spec: a `ChecklistItem` (data model section 3); the
repository declares checklist items only inside agent-authored JSON examples.
`verification_hint` is the set of test kinds named for the item. -/
structure ChecklistItem where
  id : String
  text : String
  priority : String
  verification_hint : List String
  implementation_area : String
deriving DecidableEq, Repr

/-- Modelled from the spec: a test reference carried by a coverage record;
the engine reads only its tags (section 6: per-item test lists with
tags/status). -/
structure TestRef where
  name : String
  tags : List String
deriving DecidableEq, Repr

/-- Modelled from the spec: a `CoverageRecord` (data model section 3). -/
structure CoverageRecord where
  per_item : List (String × List TestRef)
  total_items : Nat
  items_with_tests : Nat
  blockers : List String
deriving DecidableEq, Repr

/-- Tests the coverage record associates with a checklist id; an id without
an entry has no tests. -/
def testsFor (cov : CoverageRecord) (id : String) : List TestRef :=
  (assocGet cov.per_item id).getD []

/-- A test tagged as an E2E type. -/
def isE2ETest (t : TestRef) : Bool :=
  t.tags.contains ("E2E")

/-- A checklist item whose verification hint includes E2E. -/
def hasE2EHint (i : ChecklistItem) : Bool :=
  i.verification_hint.contains ("E2E")

/-- Gate verdict. -/
inductive GateStatus
  | pass
  | fail
deriving DecidableEq, Repr

/-- Gate result: the verdict, the checklist ids with zero associated tests,
and the reason flagging the items that fail the E2E sub-check. -/
structure GateResult where
  status : GateStatus
  missing : List String
  e2e_gaps : List String
deriving DecidableEq, Repr

/-- Modelled from the spec: the Coverage Gate `evaluate(checklist,
coverage_record)` of section 4.4, whose implementation exists only as the
Phase 5 instructions of the orchestrator agent prompt.  Pass requires
`items_with_tests == total_items`, no blockers, and an E2E-tagged test for
every E2E-hinted item; `missing` lists every checklist id with zero
associated tests. -/
def evaluateGate (checklist : List ChecklistItem) (cov : CoverageRecord) : GateResult :=
  let missing := List.map (fun i => i.id)
    (List.filter (fun i => (testsFor cov i.id).isEmpty) checklist)
  let gaps := List.map (fun i => i.id)
    (List.filter (fun i => hasE2EHint i && !((testsFor cov i.id).any isE2ETest)) checklist)
  let ok := cov.items_with_tests == cov.total_items
    && cov.blockers.isEmpty && gaps.isEmpty
  { status := if ok then GateStatus.pass else GateStatus.fail
    missing := missing
    e2e_gaps := gaps }

/-! ## Test result correlator

The per-item aggregation is declared in the playwright-runner skill
(`correlateWithChecklist`) and described in the playwright-tester agent
prompt, but implemented by no code of the repository; the aggregation is
modelled from the specification. -/

/-- Status union of a raw test outcome. -/
inductive OutcomeStatus
  | passed
  | failed
  | skipped
deriving DecidableEq, Repr

/-- Modelled from the spec: a `TestOutcome` (data model section 3): id,
status, tags (feature tag plus zero-or-more AC tags), optional error text. -/
structure TestOutcome where
  id : String
  status : OutcomeStatus
  tags : List String
  error_text : Option String
deriving DecidableEq, Repr

/-- Per-item aggregate status vocabulary the correlator can emit. -/
inductive ItemStatus
  | passed
  | failed
  | not_tested
deriving DecidableEq, Repr

/-- Outcomes matched to a checklist item: those carrying the item's AC tag. -/
def matchesFor (outcomes : List TestOutcome) (acTag : String) : List TestOutcome :=
  List.filter (fun o => o.tags.contains acTag) outcomes

/-- Matched outcomes that enter the dominance calculation: skipped outcomes
are excluded. -/
def effectiveMatches (outcomes : List TestOutcome) (acTag : String) : List TestOutcome :=
  List.filter (fun o => !(o.status == OutcomeStatus.skipped)) (matchesFor outcomes acTag)

/-- Modelled from the spec: the Correlator's per-item aggregation of section
4.5, whose implementation (`correlateWithChecklist` of the playwright-runner
skill) is absent from the repository's code.  Skipped outcomes are excluded;
an item with no remaining match is not tested, any failed match dominates,
otherwise the item passed. -/
def aggregateStatus (outcomes : List TestOutcome) (acTag : String) : ItemStatus :=
  let effective := effectiveMatches outcomes acTag
  if effective.isEmpty then ItemStatus.not_tested
  else if effective.any (fun o => o.status == OutcomeStatus.failed) then ItemStatus.failed
  else ItemStatus.passed

/-! ## Concrete fixtures for counterexamples and witnesses -/

/-- An `update_state` call that only increments the iteration counter. -/
def incOnly : UpdateFields :=
  { phase := none
    status := none
    increment_iteration := true
    add_error := none
    mark_phase_completed := none }

/-- An `update_state` call that only marks phase `ph` completed. -/
def markOnly (ph : String) : UpdateFields :=
  { phase := none
    status := none
    increment_iteration := false
    add_error := none
    mark_phase_completed := some ph }

/-- Iterated increment-only updates (the feedback loop calling
`update_state` with `increment_iteration` repeatedly). -/
def incIterN : Nat → FeatureState → FeatureState
  | 0, s => s
  | n + 1, s => incIterN n (applyUpdate s incOnly ("tick"))

/-- A feature state whose iteration counter already equals its
`max_iterations` of 5. -/
def stateAtLimit : FeatureState :=
  { feature_id := "feat-limit"
    title := none
    current_phase := "feedback"
    status := Status.in_progress
    scope := { implementation_scope := "full", skip_backend := false, notes := none }
    created_at := "t0"
    updated_at := "t0"
    phases_completed := []
    current_iteration := 5
    max_iterations := 5
    errors := [] }

/-- A store holding only the at-limit workspace. -/
def storeAtLimit : Store :=
  [("feat-limit", { state := stateAtLimit, files := [] })]

/-- A freshly created demo state. -/
def demoState : FeatureState :=
  initialState ("feat-a") none none none ("t0")

/-- A store holding one freshly created workspace with no artifacts. -/
def demoStore : Store :=
  [("feat-a", { state := demoState, files := [] })]

/-! ## C1: the iteration limit and `update_state` -/

/-- C1 counterexample: at a state with `current_iteration = max_iterations =
5`, `update_state` with `increment_iteration=true` raises the counter to 6,
leaves the status `in_progress` and appends no error — the source (lines
772-774) never consults `max_iterations`. -/
theorem updateState_iteration_limit_cex :
    ∃ s1 store1,
      updateState storeAtLimit ("feat-limit") incOnly ("t1") = Except.ok (s1, store1) ∧
      s1.current_iteration = 6 ∧
      s1.status = Status.in_progress ∧
      s1.errors = [] := by
  exact ⟨_, _, rfl, rfl, rfl, rfl⟩

/-- C1 (corrected): `update_state` with `increment_iteration=true` always
increments the counter by exactly one, regardless of `max_iterations`, and
on its own never changes the status and never appends an error; hence `n`
increment calls raise the counter by `n` with status and errors unchanged,
and the counter passes `max_iterations` without the status becoming
`failed`.  The iteration limit is not enforced by `update_state`. -/
theorem updateState_increment_unconditional (s : FeatureState) (now : String) :
    ((applyUpdate s incOnly now).current_iteration = s.current_iteration + 1 ∧
      (applyUpdate s incOnly now).status = s.status ∧
      (applyUpdate s incOnly now).errors = s.errors) ∧
    ∀ n : Nat,
      (incIterN n s).current_iteration = s.current_iteration + n ∧
      (incIterN n s).status = s.status ∧
      (incIterN n s).errors = s.errors := by
  constructor
  · exact ⟨rfl, rfl, rfl⟩
  · intro n
    induction n generalizing s with
    | zero => simp [incIterN]
    | succ m ih =>
      have h2 := ih (applyUpdate s incOnly ("tick"))
      have e1 : (applyUpdate s incOnly ("tick")).current_iteration =
          s.current_iteration + 1 := rfl
      have e2 : (applyUpdate s incOnly ("tick")).status = s.status := rfl
      have e3 : (applyUpdate s incOnly ("tick")).errors = s.errors := rfl
      refine ⟨?_, ?_, ?_⟩
      · show (incIterN m (applyUpdate s incOnly ("tick"))).current_iteration =
          s.current_iteration + (m + 1)
        rw [h2.1, e1]
        omega
      · show (incIterN m (applyUpdate s incOnly ("tick"))).status = s.status
        rw [h2.2.1, e2]
      · show (incIterN m (applyUpdate s incOnly ("tick"))).errors = s.errors
        rw [h2.2.2, e3]

/-! ## C4: failure categorization keywords -/

/-- C4 counterexample: an error text containing the lowercase word timeout
is categorized `unknown`, not `frontend` — the source matches the
case-sensitive substrings `Timeout` and `waiting for selector`. -/
theorem categorizeFailure_lowercase_cex :
    strIncludes ("timeout waiting") ("timeout") = true ∧
    categorizeFailure ("timeout waiting") = "unknown" ∧
    categorizeFailure ("timeout waiting") ≠ "frontend" := by
  refine ⟨by decide, by decide, by decide⟩

/-- C4 (corrected): failure categorization applies ordered case-sensitive
substring rules with first match winning: error text containing `Timeout` or
`waiting for selector` is `frontend`; else containing `API`, `fetch` or
`network` is `backend`; else containing `expect` is `assertion`; otherwise
`unknown`.  In particular `Timeout waiting for selector` is `frontend`. -/
theorem categorizeFailure_rules (e : String) :
    ((strIncludes e ("Timeout") = true ∨ strIncludes e ("waiting for selector") = true) →
      categorizeFailure e = "frontend") ∧
    (strIncludes e ("Timeout") = false → strIncludes e ("waiting for selector") = false →
      (strIncludes e ("API") = true ∨ strIncludes e ("fetch") = true ∨
        strIncludes e ("network") = true) →
      categorizeFailure e = "backend") ∧
    (strIncludes e ("Timeout") = false → strIncludes e ("waiting for selector") = false →
      strIncludes e ("API") = false → strIncludes e ("fetch") = false →
      strIncludes e ("network") = false → strIncludes e ("expect") = true →
      categorizeFailure e = "assertion") ∧
    (strIncludes e ("Timeout") = false → strIncludes e ("waiting for selector") = false →
      strIncludes e ("API") = false → strIncludes e ("fetch") = false →
      strIncludes e ("network") = false → strIncludes e ("expect") = false →
      categorizeFailure e = "unknown") ∧
    categorizeFailure ("Timeout waiting for selector") = "frontend" := by
  refine ⟨?_, ?_, ?_, ?_, by decide⟩
  · intro h
    rcases h with h | h <;> simp [categorizeFailure, h]
  · intro h1 h2 h3
    rcases h3 with h | h | h <;> simp [categorizeFailure, h1, h2, h]
  · intro h1 h2 h3 h4 h5 h6
    simp [categorizeFailure, h1, h2, h3, h4, h5, h6]
  · intro h1 h2 h3 h4 h5 h6
    simp [categorizeFailure, h1, h2, h3, h4, h5, h6]

/-! ## C9: deletion confirmation precedes existence -/

/-- C9 (confirmed): for every feature id — also one with no workspace —
`delete_workspace` with `confirm=false` fails with the deletion-not-confirmed
error, never not-found, and removes nothing; not-found is reported only with
`confirm=true` on an absent workspace. -/
theorem deleteWorkspace_confirm_first (store : Store) (fid : String) (h : fid ≠ "") :
    deleteWorkspace store fid false = Except.error OpError.deletionNotConfirmed ∧
    (assocGet store fid = none →
      deleteWorkspace store fid true = Except.error OpError.workspaceNotFound) := by
  constructor
  · simp [deleteWorkspace, h]
  · intro hnone
    simp [deleteWorkspace, h, hnone]

/-- Witness for C9 at the id `ghost` over the empty store. -/
theorem deleteWorkspace_confirm_first_witness :
    deleteWorkspace [] ("ghost") false = Except.error OpError.deletionNotConfirmed ∧
    (assocGet ([] : Store) ("ghost") = none →
      deleteWorkspace [] ("ghost") true = Except.error OpError.workspaceNotFound) :=
  deleteWorkspace_confirm_first [] ("ghost") (by decide)

/-! ## C10: empty content is a missing parameter -/

/-- C10 (confirmed): `save_artifact` with empty content fails with the
missing-required-parameters error for every feature id, name and declared
type — before any type validation or write — so an empty artifact can never
be stored through save. -/
theorem saveArtifact_empty_content (store : Store) (fid name : String)
    (ty : Option String) :
    saveArtifact store fid name ("") ty = Except.error OpError.missingParams := by
  simp [saveArtifact]

/-! ## C7: workspace creation is unique -/

/-- C7 (confirmed): a first `create_workspace` on an absent feature id
succeeds with the initial state — phase `initialization`, status
`in_progress`, iteration 0, no errors — and a second create with the same id
fails with already-exists while the stored state stays the one the first
call wrote. -/
theorem createWorkspace_unique (store : Store) (fid : String)
    (title scope notes : Option String) (now1 now2 : String)
    (hfid : fid ≠ "") (habsent : assocGet store fid = none) :
    ∃ st store1,
      createWorkspace store fid title scope notes now1 = Except.ok (st, store1) ∧
      st.current_phase = "initialization" ∧
      st.status = Status.in_progress ∧
      st.current_iteration = 0 ∧
      st.errors = [] ∧
      createWorkspace store1 fid title scope notes now2 =
        Except.error OpError.workspaceAlreadyExists ∧
      assocGet store1 fid = some { state := st, files := [] } := by
  refine ⟨initialState fid title scope notes now1,
    assocSet store fid { state := initialState fid title scope notes now1, files := [] },
    ?_, rfl, rfl, rfl, rfl, ?_, ?_⟩
  · simp [createWorkspace, hfid, habsent]
  · simp [createWorkspace, hfid, assocGet_assocSet_self]
  · exact assocGet_assocSet_self store fid _

/-- Witness for C7: creating `feat-x` twice over the empty store. -/
theorem createWorkspace_unique_witness :
    ∃ st store1,
      createWorkspace [] ("feat-x") none (some ("frontend-only")) none ("t1") =
        Except.ok (st, store1) ∧
      st.current_phase = "initialization" ∧
      st.status = Status.in_progress ∧
      st.current_iteration = 0 ∧
      st.errors = [] ∧
      createWorkspace store1 ("feat-x") none (some ("frontend-only")) none ("t2") =
        Except.error OpError.workspaceAlreadyExists ∧
      assocGet store1 ("feat-x") = some { state := st, files := [] } :=
  createWorkspace_unique [] ("feat-x") none (some ("frontend-only")) none ("t1") ("t2")
    (by decide) rfl

/-! ## C5: save then get round-trips the content -/

/-- C5 (confirmed): over an existing workspace, saving content that is valid
for its declared type under a nonempty name and getting it back returns the
content unchanged. -/
theorem saveArtifact_getArtifact_roundtrip (store : Store)
    (fid name content : String) (ty : Option String) (w : Workspace)
    (hfid : fid ≠ "") (hname : name ≠ "") (hcontent : content ≠ "")
    (hws : assocGet store fid = some w)
    (hvalid : validForType (resolveArtifactType ty) content = true) :
    ∃ store1,
      saveArtifact store fid name content ty = Except.ok store1 ∧
      getArtifact store1 fid name = Except.ok content := by
  have hnf : ¬ (resolveArtifactType ty = "json" ∧ jsonParses content = false) := by
    rintro ⟨hj, hp⟩
    rw [validForType, if_pos hj, hp] at hvalid
    exact Bool.false_ne_true hvalid
  refine ⟨assocSet store fid { w with files := assocSet w.files name content }, ?_, ?_⟩
  · simp [saveArtifact, hfid, hname, hcontent, hws, hnf]
  · simp [getArtifact, hfid, hname, assocGet_assocSet_self]

/-- Witness for C5: markdown content `hello` under `notes.md` round-trips in
the demo workspace. -/
theorem saveArtifact_getArtifact_roundtrip_witness :
    ∃ store1,
      saveArtifact demoStore ("feat-a") ("notes.md") ("hello") (some ("markdown")) =
        Except.ok store1 ∧
      getArtifact store1 ("feat-a") ("notes.md") = Except.ok ("hello") :=
  saveArtifact_getArtifact_roundtrip demoStore ("feat-a") ("notes.md") ("hello")
    (some ("markdown")) { state := demoState, files := [] }
    (by decide) (by decide) (by decide) rfl rfl

/-! ## C6: invalid structured content is rejected and writes nothing -/

theorem assocGet_none_not_mem_keys {α : Type} (l : List (String × α)) (k : String)
    (h : assocGet l k = none) : k ∉ List.map (fun e => e.1) l := by
  induction l with
  | nil => simp
  | cons hd tl ih =>
    obtain ⟨k0, v0⟩ := hd
    by_cases hk : k0 = k
    · simp [assocGet, hk] at h
    · simp [assocGet, hk] at h
      simp [ih h]
      exact fun hek => absurd hek.symm hk

/-- C6 (confirmed): saving content that does not parse as JSON under the
declared json type fails with invalid-artifact-content, and nothing is
written: when no artifact of that name existed, a subsequent listing still
does not include the name. -/
theorem saveArtifact_invalid_json_atomic (store : Store) (fid name content : String)
    (w : Workspace) (hfid : fid ≠ "") (hname : name ≠ "") (hcontent : content ≠ "")
    (hws : assocGet store fid = some w) (hbad : jsonParses content = false) :
    saveArtifact store fid name content (some ("json")) =
      Except.error OpError.invalidArtifactContent ∧
    (assocGet w.files name = none →
      ∃ names, listArtifacts store fid = Except.ok names ∧ name ∉ names) := by
  constructor
  · simp [saveArtifact, resolveArtifactType, hfid, hname, hcontent, hws, hbad]
  · intro habsent
    refine ⟨List.filter (fun f => !(f.startsWith ((".") : String)))
      (List.map (fun e => e.1) w.files), ?_, ?_⟩
    · simp [listArtifacts, hfid, hws]
    intro hmem
    exact assocGet_none_not_mem_keys w.files name habsent (List.mem_of_mem_filter hmem)

/-- Witness for C6: the content fragment from the spec scenario, an opening
brace followed by `not valid`, is rejected and stays unlisted. -/
theorem saveArtifact_invalid_json_atomic_witness :
    saveArtifact demoStore ("feat-a") ("checklist") ("\x7bnot valid") (some ("json")) =
      Except.error OpError.invalidArtifactContent ∧
    (assocGet ([] : List (String × String)) ("checklist") = none →
      ∃ names, listArtifacts demoStore ("feat-a") = Except.ok names ∧ "checklist" ∉ names) :=
  saveArtifact_invalid_json_atomic demoStore ("feat-a") ("checklist") ("\x7bnot valid")
    { state := demoState, files := [] }
    (by decide) (by decide) (by decide) rfl (by decide)

/-! ## C8: marking a phase completed is idempotent -/

theorem applyUpdate_markOnly_phases (s : FeatureState) (X now : String) (hX : X ≠ "") :
    (applyUpdate s (markOnly X) now).phases_completed =
      if s.phases_completed.contains X then s.phases_completed
      else s.phases_completed ++ [X] := by
  simp [applyUpdate, markOnly, hX]
  split <;> rfl

/-- C8 (confirmed): for every state whose completed-phase collection is a
set (each phase at most once, as `create_workspace` and `update_state`
maintain) and every nonempty phase name, two successive
`mark_phase_completed` calls leave the collection equal after the first call
and containing the phase exactly once — the second mark is a no-op. -/
theorem markPhaseCompleted_idempotent (s : FeatureState) (X now1 now2 : String)
    (hX : X ≠ "") (hcount : s.phases_completed.count X ≤ 1) :
    (applyUpdate (applyUpdate s (markOnly X) now1) (markOnly X) now2).phases_completed =
      (applyUpdate s (markOnly X) now1).phases_completed ∧
    (applyUpdate (applyUpdate s (markOnly X) now1) (markOnly X) now2).phases_completed.count X = 1 := by
  have h1 := applyUpdate_markOnly_phases s X now1 hX
  have h2 := applyUpdate_markOnly_phases (applyUpdate s (markOnly X) now1) X now2 hX
  by_cases hc : s.phases_completed.contains X
  · rw [if_pos hc] at h1
    have hc2 : (applyUpdate s (markOnly X) now1).phases_completed.contains X := by
      rw [h1]; exact hc
    rw [if_pos hc2] at h2
    have hmem : X ∈ s.phases_completed := by
      simpa using hc
    have hpos : 1 ≤ s.phases_completed.count X := List.count_pos_iff.mpr hmem
    refine ⟨h2, ?_⟩
    rw [h2, h1]
    omega
  · rw [if_neg hc] at h1
    have hc2 : (applyUpdate s (markOnly X) now1).phases_completed.contains X := by
      rw [h1]
      simp
    rw [if_pos hc2] at h2
    have hzero : s.phases_completed.count X = 0 := by
      rw [List.count_eq_zero]
      simpa using hc
    refine ⟨h2, ?_⟩
    rw [h2, h1, List.count_append, hzero]
    simp

/-- Witness for C8: marking `planning` twice on the demo state after one
completed phase. -/
theorem markPhaseCompleted_idempotent_witness :
    (applyUpdate (applyUpdate demoState (markOnly ("planning")) ("t1"))
        (markOnly ("planning")) ("t2")).phases_completed =
      (applyUpdate demoState (markOnly ("planning")) ("t1")).phases_completed ∧
    (applyUpdate (applyUpdate demoState (markOnly ("planning")) ("t1"))
        (markOnly ("planning")) ("t2")).phases_completed.count ("planning") = 1 :=
  markPhaseCompleted_idempotent demoState ("planning") ("t1") ("t2")
    (by decide) (by decide)

/-! ## C2: the coverage gate decision -/

theorem e2e_gaps_nil_iff (checklist : List ChecklistItem) (cov : CoverageRecord) :
    List.filter (fun i => hasE2EHint i && !((testsFor cov i.id).any isE2ETest)) checklist = [] ↔
      ∀ i ∈ checklist, hasE2EHint i = true → ∃ t ∈ testsFor cov i.id, isE2ETest t = true := by
  rw [List.filter_eq_nil_iff]
  constructor
  · intro h i hi hhint
    have hni := h i hi
    simp [hhint] at hni
    exact hni
  · intro h i hi
    simp only [Bool.and_eq_true, Bool.not_eq_true', not_and]
    intro hhint
    simp only [Bool.not_eq_false, List.any_eq_true]
    exact h i hi hhint

/-- C2 (confirmed): the gate passes exactly when `items_with_tests` equals
`total_items`, the blockers list is empty, and every E2E-hinted checklist
item has at least one E2E-tagged associated test; and `missing` holds
exactly the checklist ids with zero associated tests. -/
theorem coverageGate_pass_iff (checklist : List ChecklistItem) (cov : CoverageRecord) :
    ((evaluateGate checklist cov).status = GateStatus.pass ↔
      (cov.items_with_tests = cov.total_items ∧ cov.blockers = [] ∧
        ∀ i ∈ checklist, hasE2EHint i = true →
          ∃ t ∈ testsFor cov i.id, isE2ETest t = true)) ∧
    (∀ x, x ∈ (evaluateGate checklist cov).missing ↔
      ∃ i ∈ checklist, i.id = x ∧ testsFor cov i.id = []) := by
  constructor
  · rw [show (evaluateGate checklist cov).status =
        (if cov.items_with_tests == cov.total_items && cov.blockers.isEmpty
            && (List.map (fun i => i.id) (List.filter
              (fun i => hasE2EHint i && !((testsFor cov i.id).any isE2ETest))
                checklist)).isEmpty
          then GateStatus.pass else GateStatus.fail) from rfl]
    split
    case isTrue hb =>
      simp only [Bool.and_eq_true, beq_iff_eq, List.isEmpty_iff, List.map_eq_nil_iff] at hb
      simp only [true_iff]
      exact ⟨hb.1.1, hb.1.2, (e2e_gaps_nil_iff checklist cov).mp hb.2⟩
    case isFalse hb =>
      simp only [Bool.and_eq_true, beq_iff_eq, List.isEmpty_iff, List.map_eq_nil_iff] at hb
      constructor
      · intro hc
        cases hc
      · intro ⟨h1, h2, h3⟩
        exact absurd ⟨⟨h1, h2⟩, (e2e_gaps_nil_iff checklist cov).mpr h3⟩ hb
  · intro x
    simp only [evaluateGate, List.mem_map, List.mem_filter, List.isEmpty_iff]
    constructor
    · rintro ⟨i, ⟨hi, hnil⟩, rfl⟩
      exact ⟨i, hi, rfl, hnil⟩
    · rintro ⟨i, hi, rfl, hnil⟩
      exact ⟨i, ⟨hi, hnil⟩, rfl⟩

/-! ## C3: per-item aggregation of test outcomes -/

/-- C3 (confirmed): per checklist item, zero matched outcomes give
`not_tested`; only-skipped matches give `not_tested`; any failed match
dominates to `failed`; and the item is `passed` exactly when some matched
outcome is not skipped and no matched outcome failed. -/
theorem correlator_aggregation (outcomes : List TestOutcome) (tag : String) :
    (matchesFor outcomes tag = [] → aggregateStatus outcomes tag = ItemStatus.not_tested) ∧
    ((∀ o ∈ matchesFor outcomes tag, o.status = OutcomeStatus.skipped) →
      aggregateStatus outcomes tag = ItemStatus.not_tested) ∧
    ((∃ o ∈ matchesFor outcomes tag, o.status = OutcomeStatus.failed) →
      aggregateStatus outcomes tag = ItemStatus.failed) ∧
    (aggregateStatus outcomes tag = ItemStatus.passed ↔
      ((∃ o ∈ matchesFor outcomes tag, o.status ≠ OutcomeStatus.skipped) ∧
        ∀ o ∈ matchesFor outcomes tag, o.status ≠ OutcomeStatus.failed)) := by
  refine ⟨?_, ?_, ?_, ?_⟩
  · intro h
    simp [aggregateStatus, effectiveMatches, h]
  · intro h
    have heff : effectiveMatches outcomes tag = [] := by
      rw [effectiveMatches, List.filter_eq_nil_iff]
      intro o ho
      simp [h o ho]
    simp [aggregateStatus, heff]
  · rintro ⟨o, ho, hof⟩
    have hmem : o ∈ effectiveMatches outcomes tag := by
      rw [effectiveMatches, List.mem_filter]
      exact ⟨ho, by simp [hof]⟩
    have hne : (effectiveMatches outcomes tag).isEmpty = false := by
      rw [List.isEmpty_eq_false_iff_exists_mem]
      exact ⟨o, hmem⟩
    have hany : (effectiveMatches outcomes tag).any
        (fun o => o.status == OutcomeStatus.failed) = true :=
      List.any_eq_true.mpr ⟨o, hmem, by simp [hof]⟩
    simp [aggregateStatus, hne, hany]
  · constructor
    · intro hp
      rw [aggregateStatus] at hp
      by_cases hE : (effectiveMatches outcomes tag).isEmpty
      · simp [hE] at hp
      · by_cases hA : (effectiveMatches outcomes tag).any
            (fun o => o.status == OutcomeStatus.failed) = true
        · simp [hE, hA] at hp
        · have hnil : ¬ effectiveMatches outcomes tag = [] := by
            intro hc
            rw [hc] at hE
            exact hE rfl
          obtain ⟨o, ho⟩ := List.exists_mem_of_ne_nil _ hnil
          have hos := List.mem_filter.mp (by rw [effectiveMatches] at ho; exact ho)
          refine ⟨⟨o, hos.1, by simpa using hos.2⟩, ?_⟩
          intro o2 ho2 hof2
          apply hA
          rw [List.any_eq_true]
          refine ⟨o2, ?_, by simp [hof2]⟩
          rw [effectiveMatches, List.mem_filter]
          exact ⟨ho2, by simp [hof2]⟩
    · rintro ⟨⟨o, ho, hons⟩, hnf⟩
      have hmem : o ∈ effectiveMatches outcomes tag := by
        rw [effectiveMatches, List.mem_filter]
        exact ⟨ho, by simpa using hons⟩
      have hne : (effectiveMatches outcomes tag).isEmpty = false := by
        rw [List.isEmpty_eq_false_iff_exists_mem]
        exact ⟨o, hmem⟩
      have hany : (effectiveMatches outcomes tag).any
          (fun o => o.status == OutcomeStatus.failed) = false := by
        rw [Bool.eq_false_iff]
        intro hc
        obtain ⟨o2, ho2, hof2⟩ := List.any_eq_true.mp hc
        have := hnf o2 (List.mem_of_mem_filter (by rw [effectiveMatches] at ho2; exact ho2))
        exact this (by simpa using hof2)
      simp [aggregateStatus, hne, hany]

end DocsDriven
